import Mathlib

/-!
Verification of the exactextract zonal-statistics core against its
specification.  The repository ships `src/src/exactextract.cpp` (the driver:
statistics dispatch and the per-zone processing loop) together with the unit
tests of the grid algebra (`src/unnamed/part_001`) and of the raster view
(`src/unnamed/part_002`).  The implementations of `grid.h`, `box.h` and
`raster.h` themselves are not among the staged files, so those operations are
modelled here from the specification's words (§3, §4.1, §4.2) and checked
against every concrete expectation recorded in the staged unit tests.
Coordinates are modelled as rationals: the specification describes the
geometry in exact real arithmetic with explicit tolerances, and every staged
test value is an exact decimal.
-/

namespace ExactExtract

/-- Modelled from the spec: `box.h` is not among the staged files.  §3: an
axis-aligned rectangle `(xmin, ymin, xmax, ymax)`. -/
structure Box where
  xmin : ℚ
  ymin : ℚ
  xmax : ℚ
  ymax : ℚ
deriving DecidableEq

/-- Modelled from the spec: `box.h` is not among the staged files.  §3 lists
`intersects` among the Box operations; two axis-aligned boxes intersect iff
they overlap in both axes (closed extents, so touching edges count). -/
def Box.intersects (a b : Box) : Bool :=
  decide (a.xmin ≤ b.xmax) && decide (b.xmin ≤ a.xmax) &&
  decide (a.ymin ≤ b.ymax) && decide (b.ymin ≤ a.ymax)

/-- Modelled from the spec: `grid.h` is not among the staged files.  §3: a
grid is an immutable value, an extent (Box) plus cell sizes `dx > 0`,
`dy > 0`.  The bounded and the infinite flavor share this data; the lookup
functions below carry a `_b` (bounded) or `_i` (infinite) suffix in place of
the C++ template parameter `bounded_extent` / `infinite_extent`. -/
structure Grid where
  extent : Box
  dx : ℚ
  dy : ℚ
deriving DecidableEq

/-- Modelled from the spec, §3: row and column counts round half away from
zero.  (The spec's relative tolerance of ~1e-6 absorbs floating-point error
in the extent; in exact rational arithmetic there is no such error.) -/
def roundHalfAwayFromZero (q : ℚ) : ℤ :=
  if 0 ≤ q then ⌊q + 1/2⌋ else ⌈q - 1/2⌉

/-- Modelled from the spec, §3: column count = `round((xmax - xmin) / dx)`. -/
def Grid.cols (g : Grid) : ℕ :=
  (roundHalfAwayFromZero ((g.extent.xmax - g.extent.xmin) / g.dx)).toNat

/-- Modelled from the spec, §3: row count = `round((ymax - ymin) / dy)`. -/
def Grid.rows (g : Grid) : ℕ :=
  (roundHalfAwayFromZero ((g.extent.ymax - g.extent.ymin) / g.dy)).toNat

/-- Modelled from the spec, §4.1: a scaled coordinate within relative
tolerance ~1e-8 of a cell boundary (an integer value) is treated as exactly
on that boundary.  The staged test `src/unnamed/part_001` fixes the rounding
direction: a coordinate on (or snapped to) the boundary between two cells
gets the larger of the two indices (`get_column(-179) == 1`,
`get_row(-89.5) == 359` on the half-world grid), which the subsequent floor
realises. -/
def snapToBoundary (v : ℚ) : ℚ :=
  if |v - round v| * 100000000 ≤ |v| then (round v : ℚ) else v

/-- Modelled from the spec, §3/§4.1, and the staged tests: bounded-grid
column lookup.  Coordinates outside `[xmin, xmax]` fail with OutOfExtent
(modelled as `none`); inside, the scaled offset from `xmin` is snapped,
floored and clamped so that `x = xmax` lands in the last column. -/
def Grid.get_column_b (g : Grid) (x : ℚ) : Option ℕ :=
  if x < g.extent.xmin ∨ g.extent.xmax < x then none
  else some (min (⌊snapToBoundary ((x - g.extent.xmin) / g.dx)⌋.toNat) (g.cols - 1))

/-- Modelled from the spec, §3/§4.1, and the staged tests: bounded-grid row
lookup; row 0 is at the top (largest y), and `y = ymin` lands in the last
row. -/
def Grid.get_row_b (g : Grid) (y : ℚ) : Option ℕ :=
  if y < g.extent.ymin ∨ g.extent.ymax < y then none
  else some (min (⌊snapToBoundary ((g.extent.ymax - y) / g.dy)⌋.toNat) (g.rows - 1))

/-- Modelled from the spec, §3: the infinite variant reports `2 +` the
bounded row count (one ghost row on each side). -/
def Grid.rows_i (g : Grid) : ℕ := 2 + g.rows

/-- Modelled from the spec, §3: the infinite variant reports `2 +` the
bounded column count. -/
def Grid.cols_i (g : Grid) : ℕ := 2 + g.cols

/-- Modelled from the spec, §4.1, and the staged tests: infinite-grid row
lookup.  Above `ymax` is the top ghost row 0; below `ymin` is the bottom
ghost row just past the visible rows; visible indices are the bounded ones
shifted by +1. -/
def Grid.get_row_i (g : Grid) (y : ℚ) : ℕ :=
  if y < g.extent.ymin then g.rows + 1
  else if g.extent.ymax < y then 0
  else 1 + min (⌊snapToBoundary ((g.extent.ymax - y) / g.dy)⌋.toNat) (g.rows - 1)

/-- Modelled from the spec, §4.1, and the staged tests: infinite-grid column
lookup.  Below `xmin` is the left ghost column 0; above `xmax` is the right
ghost column just past the visible columns. -/
def Grid.get_column_i (g : Grid) (x : ℚ) : ℕ :=
  if x < g.extent.xmin then 0
  else if g.extent.xmax < x then g.cols + 1
  else 1 + min (⌊snapToBoundary ((x - g.extent.xmin) / g.dx)⌋.toNat) (g.cols - 1)

/-- Modelled from the spec, §4.1: `shrink_to_fit(box)` snaps each edge of
`box` outward to the grid lines of `self`: vertical lines are anchored at
`xmin` (`new-xmin = xmin + floor((box.xmin - xmin)/dx)·dx`), horizontal
lines at `ymax` (row 0 is at the top).  Cell size is preserved.  (The
tolerance exception for an edge already on a grid line is vacuous in exact
arithmetic: the floor then reproduces the edge.)  The staged test values
("Bounded grid shrink works correctly") pin the formula down. -/
def Grid.shrink_to_fit (g : Grid) (b : Box) : Grid :=
  { extent :=
      { xmin := g.extent.xmin + (⌊(b.xmin - g.extent.xmin) / g.dx⌋ : ℚ) * g.dx
        xmax := g.extent.xmin + (⌈(b.xmax - g.extent.xmin) / g.dx⌉ : ℚ) * g.dx
        ymin := g.extent.ymax - (⌈(g.extent.ymax - b.ymin) / g.dy⌉ : ℚ) * g.dy
        ymax := g.extent.ymax - (⌊(g.extent.ymax - b.ymax) / g.dy⌋ : ℚ) * g.dy }
    dx := g.dx
    dy := g.dy }

/-- Modelled from the spec, §4.1: `a` is an integer multiple of `b` iff the
quotient `a/b` is an integer, which for a normalised rational means its
denominator is 1. -/
def isIntegerMultipleOf (a b : ℚ) : Bool :=
  (a / b).den == 1

/-- Modelled from the spec, §4.1: `compatible_with(other)` — one cell size
is an integer multiple of the other in each axis, and the origins differ by
an integer multiple of the finer cell size in each axis.  (The spec's ~1e-6
relative tolerance again only absorbs floating-point noise.)  The staged
"Grid compatibility tests" pin all seven concrete verdicts. -/
def Grid.compatible_with (g o : Grid) : Bool :=
  (isIntegerMultipleOf g.dx o.dx || isIntegerMultipleOf o.dx g.dx) &&
  (isIntegerMultipleOf g.dy o.dy || isIntegerMultipleOf o.dy g.dy) &&
  isIntegerMultipleOf (g.extent.xmin - o.extent.xmin) (min g.dx o.dx) &&
  isIntegerMultipleOf (g.extent.ymin - o.extent.ymin) (min g.dy o.dy)

/-- Modelled from the spec, §3/§4.2: `raster.h` is not among the staged
files.  A raster is a grid (extent plus cell sizes) together with its cell
values, indexed `(row, col)` with row 0 on top. -/
structure Raster where
  grid : Grid
  vals : ℕ → ℕ → ℚ

/-- Modelled from the spec, §4.2, and the staged tests in
`src/unnamed/part_002`: a `RasterView` maps target cell `(i, j)` to the
source cell whose extent contains the target cell's center, by flooring the
center's scaled offset from the source origin; out-of-source cells yield the
configured nodata value. -/
def RasterView (src : Raster) (target : Grid) (nodata : ℚ) (i j : ℕ) : ℚ :=
  let cx := target.extent.xmin + ((j : ℚ) + 1/2) * target.dx
  let cy := target.extent.ymax - ((i : ℚ) + 1/2) * target.dy
  let sc := ⌊(cx - src.grid.extent.xmin) / src.grid.dx⌋
  let sr := ⌊(src.grid.extent.ymax - cy) / src.grid.dy⌋
  if 0 ≤ sc ∧ 0 ≤ sr ∧ sc.toNat < src.grid.cols ∧ sr.toNat < src.grid.rows then
    src.vals sr.toNat sc.toNat
  else nodata

/-- Direct translation of `stored_values_needed` from
`src/src/exactextract.cpp` lines 43-49: the loop returns true as soon as a
requested statistic is `mode`, `majority`, `minority` or `variety`, and
false once the list is exhausted. -/
def stored_values_needed : List String → Bool
  | [] => false
  | stat :: rest =>
    if stat == "mode" || stat == "majority" || stat == "minority" || stat == "variety"
    then true
    else stored_values_needed rest

/-- Per-feature outcome of the body of main's processing loop
(`src/src/exactextract.cpp` lines 193-243), with the geometric computation
abstracted: the try-block either computes and writes the statistics row
(`ok`), throws (`err`, caught at line 237), or finds the feature's bounding
box disjoint from the value grid's extent and does nothing (line 196). -/
inductive FeatureOutcome where
  | ok (row : String)
  | err
  | disjoint
deriving DecidableEq

/-- One feature of the polygon dataset as main's loop sees it: its id field
value, whether it passes the `--filter` test of line 187, and what the
try-block does for it. -/
structure Feature where
  name : String
  passesFilter : Bool
  outcome : FeatureOutcome
deriving DecidableEq

/-- Observable state of one run of main's loop: the csv rows written in
order, and the `failures` vector of line 183. -/
@[ext]
structure RunState where
  rows : List String
  failures : List String
deriving DecidableEq

/-- One iteration of main's while-loop (`src/src/exactextract.cpp` lines
184-246): a filtered-out feature changes nothing; otherwise the outcome
either appends a csv row, appends the feature's name to `failures` (line
242) and continues, or skips the feature silently. -/
def processFeature (st : RunState) (f : Feature) : RunState :=
  if f.passesFilter then
    match f.outcome with
    | FeatureOutcome.ok row => { st with rows := st.rows ++ [row] }
    | FeatureOutcome.err => { st with failures := st.failures ++ [f.name] }
    | FeatureOutcome.disjoint => st
  else st

/-- The whole loop of main over the feature stream, starting from the empty
output and empty failure list. -/
def runFeatures (fs : List Feature) : RunState :=
  fs.foldl processFeature ⟨[], []⟩

/-- Exit status of main (`src/src/exactextract.cpp` lines 258-262): 0 when
no failures were recorded, 1 otherwise. -/
def mainExitCode (fs : List Feature) : ℕ :=
  if (runFeatures fs).failures.isEmpty then 0 else 1

/-- The grid of the claims' running example and of the staged index-lookup
tests: extent `(-180, -90, 180, 90)`, `dx = 1.0`, `dy = 0.5`. -/
def gTest : Grid := ⟨⟨-180, -90, 180, 90⟩, 1, 1/2⟩

/-- Half-degree global grid of the staged compatibility tests. -/
def gHalfDegree : Grid := ⟨⟨-180, -90, 180, 90⟩, 1/2, 1/2⟩

/-- One-degree global grid of the staged compatibility tests. -/
def gOneDegree : Grid := ⟨⟨-180, -90, 180, 90⟩, 1, 1⟩

/-- Tenth-degree global grid of the staged compatibility tests. -/
def gTenthDegree : Grid := ⟨⟨-180, -90, 180, 90⟩, 1/10, 1/10⟩

/-- The NLDAS grid of the staged compatibility tests: eighth-degree cells,
origin `(-125, 0.25)`. -/
def gNldas : Grid := ⟨⟨-125, 1/4, -67, 53⟩, 1/8, 1/8⟩

/-- Half-degree grid whose origin is offset by a quarter degree, from the
staged compatibility tests. -/
def gHalfDegreeOffset : Grid := ⟨⟨-180.25, -90, -100.25, 50⟩, 1/2, 1/2⟩

/-- The 10x10 source raster of the staged RasterView tests: extent
`(0, 0, 10, 10)`, unit cells, value `r(i, j) = i*j`. -/
def rSquares : Raster := ⟨⟨⟨0, 0, 10, 10⟩, 1, 1⟩, fun i j => (i : ℚ) * (j : ℚ)⟩

/-- The target grid of the staged test "Creating a scaled and shifted view":
extent `(2.5, 3, 5, 8.5)` with half-degree cells. -/
def gShiftScale : Grid := ⟨⟨2.5, 3, 5, 8.5⟩, 1/2, 1/2⟩

/-- The box of the staged test "Bounded grid shrink works correctly":
`(-44.3, -21.4, 18.3, 88.2)`. -/
def bShrink : Box := ⟨-44.3, -21.4, 18.3, 88.2⟩

/-- An aligned tenth-degree target grid over the source extent of
`rSquares`, as in the staged test "Creating a scaled view". -/
def gTenthView : Grid := ⟨⟨0, 0, 10, 10⟩, 1/10, 1/10⟩

/-- A feature whose try-block succeeds, used to instantiate the loop model. -/
def fOk : Feature := ⟨"alpha", true, FeatureOutcome.ok "alpha,1.5"⟩

/-- A feature whose try-block throws (for example on invalid geometry). -/
def fBad : Feature := ⟨"broken", true, FeatureOutcome.err⟩

/-- A feature whose bounding box misses the value grid's extent. -/
def fSkip : Feature := ⟨"faraway", true, FeatureOutcome.disjoint⟩

/-! Helper lemmas for evaluating and reasoning about the model. -/

theorem snapToBoundary_of_round (v : ℚ) (n : ℤ) (hr : round v = n)
    (h : |v - n| * 100000000 ≤ |v|) : snapToBoundary v = n := by
  rw [snapToBoundary, hr, if_pos h]

theorem snapToBoundary_of_far (v : ℚ) (n : ℤ) (hr : round v = n)
    (h : ¬ |v - n| * 100000000 ≤ |v|) : snapToBoundary v = v := by
  rw [snapToBoundary, hr, if_neg h]

theorem snapToBoundary_natCast (n : ℕ) : snapToBoundary ((n : ℕ) : ℚ) = ((n : ℕ) : ℚ) := by
  have hr : round ((n : ℕ) : ℚ) = (n : ℤ) := round_natCast n
  have h0 : |((n : ℕ) : ℚ) - ((n : ℤ) : ℚ)| * 100000000 ≤ |((n : ℕ) : ℚ)| := by
    have : ((n : ℕ) : ℚ) - ((n : ℤ) : ℚ) = 0 := by push_cast; ring
    rw [this, abs_zero, zero_mul]
    exact abs_nonneg _
  rw [snapToBoundary_of_round _ _ hr h0]
  push_cast
  rfl

theorem get_column_b_eval (g : Grid) (x w : ℚ) (m : ℕ)
    (hin : ¬(x < g.extent.xmin ∨ g.extent.xmax < x))
    (hw : (x - g.extent.xmin) / g.dx = w)
    (hm : min (⌊snapToBoundary w⌋.toNat) (g.cols - 1) = m) :
    g.get_column_b x = some m := by
  simp only [Grid.get_column_b, if_neg hin, hw, hm]

theorem get_row_b_eval (g : Grid) (y w : ℚ) (m : ℕ)
    (hin : ¬(y < g.extent.ymin ∨ g.extent.ymax < y))
    (hw : (g.extent.ymax - y) / g.dy = w)
    (hm : min (⌊snapToBoundary w⌋.toNat) (g.rows - 1) = m) :
    g.get_row_b y = some m := by
  simp only [Grid.get_row_b, if_neg hin, hw, hm]

theorem gTest_cols : gTest.cols = 360 := by
  have h : roundHalfAwayFromZero ((180 - (-180)) / 1) = 360 := by
    rw [roundHalfAwayFromZero, if_pos (by norm_num)]
    norm_num
  simp only [gTest, Grid.cols]
  rw [h]
  rfl

theorem gTest_rows : gTest.rows = 360 := by
  have h : roundHalfAwayFromZero ((90 - (-90)) / (1/2)) = 360 := by
    rw [roundHalfAwayFromZero, if_pos (by norm_num)]
    norm_num
  simp only [gTest, Grid.rows]
  rw [h]
  rfl

theorem gTest_col_neg179 : gTest.get_column_b (-179) = some 1 := by
  rw [get_column_b_eval gTest (-179) 1 1]
  · norm_num [gTest]
  · norm_num [gTest]
  · rw [snapToBoundary_of_round 1 1 (by rw [round_eq]; norm_num) (by norm_num [abs_of_nonneg])]
    rw [gTest_cols]
    simp

theorem gTest_col_near_neg179 : gTest.get_column_b (-179.000001) = some 0 := by
  rw [get_column_b_eval gTest (-179.000001) (999999/1000000) 0]
  · norm_num [gTest]
  · norm_num [gTest]
  · rw [snapToBoundary_of_far _ 1 (by rw [round_eq]; norm_num) (by norm_num [abs_of_nonneg])]
    rw [show (⌊(999999/1000000 : ℚ)⌋ : ℤ) = 0 by norm_num, gTest_cols]
    simp

theorem gTest_row_neg89p5 : gTest.get_row_b (-89.5) = some 359 := by
  rw [get_row_b_eval gTest (-89.5) 359 359]
  · norm_num [gTest]
  · norm_num [gTest]
  · rw [snapToBoundary_of_round 359 359 (by rw [round_eq]; norm_num) (by norm_num [abs_of_nonneg])]
    rw [gTest_rows]
    simp

theorem gTest_row_near_neg89p5 : gTest.get_row_b (-89.50000001) = some 359 := by
  rw [get_row_b_eval gTest (-89.50000001) (359.00000002) 359]
  · norm_num [gTest]
  · norm_num [gTest]
  · rw [snapToBoundary_of_round _ 359 (by rw [round_eq]; norm_num) (by norm_num [abs_of_nonneg])]
    rw [gTest_rows]
    simp

theorem get_column_b_boundary (g : Grid) (c : ℕ) (hdx : 0 < g.dx)
    (hxx : g.extent.xmin ≤ g.extent.xmax) (hc : c < g.cols) :
    g.get_column_b (g.extent.xmin + (c : ℚ) * g.dx) = some c := by
  have hdx0 : g.dx ≠ 0 := ne_of_gt hdx
  have hu0 : 0 ≤ (g.extent.xmax - g.extent.xmin) / g.dx :=
    div_nonneg (by linarith) (le_of_lt hdx)
  have hcols : g.cols = (⌊(g.extent.xmax - g.extent.xmin) / g.dx + 1/2⌋).toNat := by
    rw [Grid.cols, roundHalfAwayFromZero, if_pos hu0]
  have hcz : (c : ℤ) < ⌊(g.extent.xmax - g.extent.xmin) / g.dx + 1/2⌋ := by
    rw [hcols] at hc
    exact Int.lt_toNat.mp hc
  have hcq : (c : ℚ) + 1 ≤ (g.extent.xmax - g.extent.xmin) / g.dx + 1/2 := by
    have h1 : ((c : ℤ) + 1 : ℤ) ≤ ⌊(g.extent.xmax - g.extent.xmin) / g.dx + 1/2⌋ :=
      Int.add_one_le_iff.mpr hcz
    have h2 := Int.le_floor.mp h1
    push_cast at h2
    exact h2
  have hcdx : (c : ℚ) * g.dx ≤ g.extent.xmax - g.extent.xmin := by
    have h3 : (c : ℚ) ≤ (g.extent.xmax - g.extent.xmin) / g.dx - 1/2 := by linarith
    have h4 : (c : ℚ) * g.dx ≤ ((g.extent.xmax - g.extent.xmin) / g.dx - 1/2) * g.dx :=
      mul_le_mul_of_nonneg_right h3 (le_of_lt hdx)
    have h5 : (g.extent.xmax - g.extent.xmin) / g.dx * g.dx = g.extent.xmax - g.extent.xmin :=
      div_mul_cancel₀ _ hdx0
    nlinarith
  have hin : ¬(g.extent.xmin + (c : ℚ) * g.dx < g.extent.xmin ∨
      g.extent.xmax < g.extent.xmin + (c : ℚ) * g.dx) := by
    push_neg
    constructor
    · have : 0 ≤ (c : ℚ) * g.dx := mul_nonneg (Nat.cast_nonneg c) (le_of_lt hdx)
      linarith
    · linarith
  have hw : (g.extent.xmin + (c : ℚ) * g.dx - g.extent.xmin) / g.dx = ((c : ℕ) : ℚ) := by
    field_simp
  rw [get_column_b_eval g _ ((c : ℕ) : ℚ) c hin hw]
  rw [snapToBoundary_natCast, Int.floor_natCast, Int.toNat_natCast]
  exact Nat.min_eq_left (Nat.le_sub_one_of_lt hc)

theorem get_row_b_boundary (g : Grid) (r : ℕ) (hdy : 0 < g.dy)
    (hyy : g.extent.ymin ≤ g.extent.ymax) (hr : r < g.rows) :
    g.get_row_b (g.extent.ymax - (r : ℚ) * g.dy) = some r := by
  have hdy0 : g.dy ≠ 0 := ne_of_gt hdy
  have hu0 : 0 ≤ (g.extent.ymax - g.extent.ymin) / g.dy :=
    div_nonneg (by linarith) (le_of_lt hdy)
  have hrows : g.rows = (⌊(g.extent.ymax - g.extent.ymin) / g.dy + 1/2⌋).toNat := by
    rw [Grid.rows, roundHalfAwayFromZero, if_pos hu0]
  have hrz : (r : ℤ) < ⌊(g.extent.ymax - g.extent.ymin) / g.dy + 1/2⌋ := by
    rw [hrows] at hr
    exact Int.lt_toNat.mp hr
  have hrq : (r : ℚ) + 1 ≤ (g.extent.ymax - g.extent.ymin) / g.dy + 1/2 := by
    have h1 : ((r : ℤ) + 1 : ℤ) ≤ ⌊(g.extent.ymax - g.extent.ymin) / g.dy + 1/2⌋ :=
      Int.add_one_le_iff.mpr hrz
    have h2 := Int.le_floor.mp h1
    push_cast at h2
    exact h2
  have hrdy : (r : ℚ) * g.dy ≤ g.extent.ymax - g.extent.ymin := by
    have h3 : (r : ℚ) ≤ (g.extent.ymax - g.extent.ymin) / g.dy - 1/2 := by linarith
    have h4 : (r : ℚ) * g.dy ≤ ((g.extent.ymax - g.extent.ymin) / g.dy - 1/2) * g.dy :=
      mul_le_mul_of_nonneg_right h3 (le_of_lt hdy)
    have h5 : (g.extent.ymax - g.extent.ymin) / g.dy * g.dy = g.extent.ymax - g.extent.ymin :=
      div_mul_cancel₀ _ hdy0
    nlinarith
  have hin : ¬(g.extent.ymax - (r : ℚ) * g.dy < g.extent.ymin ∨
      g.extent.ymax < g.extent.ymax - (r : ℚ) * g.dy) := by
    push_neg
    constructor
    · linarith
    · have : 0 ≤ (r : ℚ) * g.dy := mul_nonneg (Nat.cast_nonneg r) (le_of_lt hdy)
      linarith
  have hw : (g.extent.ymax - (g.extent.ymax - (r : ℚ) * g.dy)) / g.dy = ((r : ℕ) : ℚ) := by
    field_simp
  rw [get_row_b_eval g _ ((r : ℕ) : ℚ) r hin hw]
  rw [snapToBoundary_natCast, Int.floor_natCast, Int.toNat_natCast]
  exact Nat.min_eq_left (Nat.le_sub_one_of_lt hr)

/-! Claim C1: the `store_values` flag. -/

/-- C1, counterexample: `stored_values_needed` returns `false` for the input
statistics list `["weighted fraction"]`, refuting the claim that the flag is
true whenever a requested statistic is among mode, minority, majority,
variety and weighted-fraction: the code tests only the first four. -/
theorem C1_counterexample :
    stored_values_needed ["weighted fraction"] = false ∧
    ¬ stored_values_needed ["weighted fraction"] = true := by
  constructor
  · rfl
  · intro h
    have hf : stored_values_needed ["weighted fraction"] = false := rfl
    rw [hf] at h
    exact Bool.false_ne_true h

/-- C1 (amended): the statistics accumulator's `store_values` flag is true
iff at least one requested statistic name is among mode, majority, minority
and variety; in particular it is false for the list `["weighted fraction"]`
and true for `["mode"]`. -/
theorem C1_stored_values_needed_spec :
    (∀ stats : List String, stored_values_needed stats = true ↔
      ∃ s, s ∈ stats ∧ (s = "mode" ∨ s = "majority" ∨ s = "minority" ∨ s = "variety")) ∧
    stored_values_needed ["weighted fraction"] = false ∧
    stored_values_needed ["mode"] = true := by
  refine ⟨?_, rfl, rfl⟩
  intro stats
  induction stats with
  | nil => simp [stored_values_needed]
  | cons a rest ih =>
    rw [stored_values_needed]
    by_cases h : (a == "mode" || a == "majority" || a == "minority" || a == "variety") = true
    · rw [if_pos h]
      simp only [Bool.or_eq_true, beq_iff_eq] at h
      simp only [true_iff]
      exact ⟨a, List.mem_cons_self a rest, by tauto⟩
    · rw [if_neg h, ih]
      simp only [Bool.or_eq_true, beq_iff_eq] at h
      push_neg at h
      constructor
      · rintro ⟨s, hs, hd⟩
        exact ⟨s, List.mem_cons_of_mem _ hs, hd⟩
      · rintro ⟨s, hs, hd⟩
        rcases List.mem_cons.mp hs with rfl | hs2
        · tauto
        · exact ⟨s, hs2, hd⟩

/-! Claim C2: rounding direction of index lookups on interior cell
boundaries. -/

/-- C2, counterexample: on the bounded grid over `(-180, -90, 180, 90)` with
`dx = 1.0`, `dy = 0.5`, `get_column(-179)` is 1 (not 0) and
`get_row(-89.5)` is 359 (not 358), exactly as the staged unit test
"Bounded grid index lookups are correct" requires: boundary coordinates
take the larger adjacent index, not the smaller one the claim states. -/
theorem C2_counterexample :
    gTest.get_column_b (-179) = some 1 ∧
    gTest.get_row_b (-89.5) = some 359 ∧
    ¬(gTest.get_column_b (-179) = some 0 ∧ gTest.get_row_b (-89.5) = some 358) := by
  refine ⟨gTest_col_neg179, gTest_row_neg89p5, fun h => ?_⟩
  rw [gTest_col_neg179] at h
  simp at h

/-- C2 (amended): a coordinate exactly on an interior grid-line boundary
gets the cell with the larger index (the lower row, the rightward column):
`get_column(xmin + c·dx) = c` for every in-range column `c` and
`get_row(ymax - r·dy) = r` for every in-range row `r`.  Coordinates within
relative tolerance ~1e-8 of a boundary are treated as on it
(`get_row(-89.50000001) = 359`), while an offset of 1e-6 of a degree is
beyond the tolerance (`get_column(-179.000001) = 0`).  On the bounded grid
over `(-180, -90, 180, 90)` with `dx = 1.0`, `dy = 0.5`:
`get_column(-179) = 1` and `get_row(-89.5) = 359`. -/
theorem C2_boundary_rounds_to_larger_index :
    (∀ (g : Grid) (c : ℕ), 0 < g.dx → g.extent.xmin ≤ g.extent.xmax → c < g.cols →
      g.get_column_b (g.extent.xmin + (c : ℚ) * g.dx) = some c) ∧
    (∀ (g : Grid) (r : ℕ), 0 < g.dy → g.extent.ymin ≤ g.extent.ymax → r < g.rows →
      g.get_row_b (g.extent.ymax - (r : ℚ) * g.dy) = some r) ∧
    gTest.get_column_b (-179) = some 1 ∧
    gTest.get_row_b (-89.5) = some 359 ∧
    gTest.get_row_b (-89.50000001) = some 359 ∧
    gTest.get_column_b (-179.000001) = some 0 :=
  ⟨fun g c hdx hxx hc => get_column_b_boundary g c hdx hxx hc,
   fun g r hdy hyy hr => get_row_b_boundary g r hdy hyy hr,
   gTest_col_neg179, gTest_row_neg89p5, gTest_row_near_neg89p5, gTest_col_near_neg179⟩

theorem gTest_row_i_below : gTest.get_row_i (-90.00000001) = 361 := by
  rw [Grid.get_row_i, if_pos (by norm_num [gTest] : (-90.00000001 : ℚ) < gTest.extent.ymin)]
  rw [gTest_rows]

theorem gTest_col_i_above : gTest.get_column_i (180.0000001) = 361 := by
  rw [Grid.get_column_i,
    if_neg (by norm_num [gTest] : ¬ (180.0000001 : ℚ) < gTest.extent.xmin),
    if_pos (by norm_num [gTest] : gTest.extent.xmax < (180.0000001 : ℚ))]
  rw [gTest_cols]

theorem gTest_rows_i : gTest.rows_i = 362 := by
  rw [Grid.rows_i, gTest_rows]

theorem gTest_cols_i : gTest.cols_i = 362 := by
  rw [Grid.cols_i, gTest_cols]

/-! Claim C3: infinite-grid ghost indices for out-of-extent coordinates. -/

/-- C3, counterexample: on the infinite grid over `(-180, -90, 180, 90)`
with `dx = 1.0`, `dy = 0.5`, a y-coordinate below `ymin` yields index 361 —
which is neither the reported row count `rows = 362` of the infinite grid
nor the bounded count 360, refuting "below-min yields the index `rows`";
likewise `get_column(180.0000001)` yields 361, not `cols = 362`.  (These
are the values the staged test "Infinite grid index lookups are correct"
requires.) -/
theorem C3_counterexample :
    gTest.get_row_i (-90.00000001) = 361 ∧
    gTest.rows_i = 362 ∧
    gTest.rows = 360 ∧
    ¬ gTest.get_row_i (-90.00000001) = gTest.rows_i ∧
    ¬ gTest.get_row_i (-90.00000001) = gTest.rows ∧
    gTest.get_column_i (180.0000001) = 361 ∧
    gTest.cols_i = 362 ∧
    ¬ gTest.get_column_i (180.0000001) = gTest.cols_i := by
  refine ⟨gTest_row_i_below, gTest_rows_i, gTest_rows, ?_, ?_, gTest_col_i_above,
    gTest_cols_i, ?_⟩
  · rw [gTest_row_i_below, gTest_rows_i]
    omega
  · rw [gTest_row_i_below, gTest_rows]
    omega
  · rw [gTest_col_i_above, gTest_cols_i]
    omega

/-- C3 (amended): for every infinite grid, `get_row` below `ymin` returns
`rows - 1` (the bottom ghost index, one less than the reported row count
`rows = 2 + bounded rows`), `get_row` above `ymax` returns 0, `get_column`
below `xmin` returns 0, and `get_column` above `xmax` returns `cols - 1`
(the right ghost index).  On the infinite grid over `(-180, -90, 180, 90)`
with `dx = 1.0`, `dy = 0.5`: `get_row(-90.00000001) = 361` and
`get_column(180.0000001) = 361`, ghost indices rather than failures, with
reported counts `rows = cols = 362`. -/
theorem C3_infinite_ghost_indices :
    (∀ (g : Grid) (y : ℚ), y < g.extent.ymin → g.get_row_i y = g.rows_i - 1) ∧
    (∀ (g : Grid) (y : ℚ), g.extent.ymin ≤ g.extent.ymax → g.extent.ymax < y →
      g.get_row_i y = 0) ∧
    (∀ (g : Grid) (x : ℚ), x < g.extent.xmin → g.get_column_i x = 0) ∧
    (∀ (g : Grid) (x : ℚ), g.extent.xmin ≤ g.extent.xmax → g.extent.xmax < x →
      g.get_column_i x = g.cols_i - 1) ∧
    (∀ g : Grid, g.rows_i = 2 + g.rows ∧ g.cols_i = 2 + g.cols) ∧
    gTest.get_row_i (-90.00000001) = 361 ∧
    gTest.get_column_i (180.0000001) = 361 ∧
    gTest.rows_i = 362 ∧
    gTest.cols_i = 362 := by
  refine ⟨?_, ?_, ?_, ?_, fun g => ⟨rfl, rfl⟩, gTest_row_i_below, gTest_col_i_above,
    gTest_rows_i, gTest_cols_i⟩
  · intro g y h
    rw [Grid.get_row_i, if_pos h, Grid.rows_i]
    omega
  · intro g y hyy h
    rw [Grid.get_row_i, if_neg (by linarith : ¬ y < g.extent.ymin), if_pos h]
  · intro g x h
    rw [Grid.get_column_i, if_pos h]
  · intro g x hxx h
    rw [Grid.get_column_i, if_neg (by linarith : ¬ x < g.extent.xmin), if_pos h,
      Grid.cols_i]
    omega

/-! Claim C4: bounded grids fail with OutOfExtent exactly outside the
extent, and succeed with an in-range index inside it. -/

/-- C4: for every bounded grid with at least one row and one column,
`get_row` (resp. `get_column`) fails — returns `none`, modelling the
OutOfExtent error — exactly for coordinates outside `[ymin, ymax]` (resp.
`[xmin, xmax]`), and for every coordinate inside the extent it succeeds
with an index in `[0, rows)` (resp. `[0, cols)`). -/
theorem C4_bounded_out_of_extent (g : Grid) (hrows : 0 < g.rows) (hcols : 0 < g.cols) :
    (∀ y : ℚ, g.get_row_b y = none ↔ (y < g.extent.ymin ∨ g.extent.ymax < y)) ∧
    (∀ x : ℚ, g.get_column_b x = none ↔ (x < g.extent.xmin ∨ g.extent.xmax < x)) ∧
    (∀ y : ℚ, g.extent.ymin ≤ y → y ≤ g.extent.ymax →
      ∃ r, g.get_row_b y = some r ∧ r < g.rows) ∧
    (∀ x : ℚ, g.extent.xmin ≤ x → x ≤ g.extent.xmax →
      ∃ c, g.get_column_b x = some c ∧ c < g.cols) := by
  refine ⟨?_, ?_, ?_, ?_⟩
  · intro y
    by_cases h : y < g.extent.ymin ∨ g.extent.ymax < y
    · simp [Grid.get_row_b, h]
    · simp [Grid.get_row_b, h]
  · intro x
    by_cases h : x < g.extent.xmin ∨ g.extent.xmax < x
    · simp [Grid.get_column_b, h]
    · simp [Grid.get_column_b, h]
  · intro y h1 h2
    have hin : ¬(y < g.extent.ymin ∨ g.extent.ymax < y) := by
      push_neg
      exact ⟨h1, h2⟩
    refine ⟨min (⌊snapToBoundary ((g.extent.ymax - y) / g.dy)⌋.toNat) (g.rows - 1), ?_, ?_⟩
    · simp only [Grid.get_row_b, if_neg hin]
    · exact lt_of_le_of_lt (min_le_right _ _) (Nat.sub_lt hrows one_pos)
  · intro x h1 h2
    have hin : ¬(x < g.extent.xmin ∨ g.extent.xmax < x) := by
      push_neg
      exact ⟨h1, h2⟩
    refine ⟨min (⌊snapToBoundary ((x - g.extent.xmin) / g.dx)⌋.toNat) (g.cols - 1), ?_, ?_⟩
    · simp only [Grid.get_column_b, if_neg hin]
    · exact lt_of_le_of_lt (min_le_right _ _) (Nat.sub_lt hcols one_pos)

/-- C4, witness: the characterisation instantiated on the concrete
half-world grid `gTest`, whose row and column counts are positive. -/
theorem C4_witness :
    (∀ y : ℚ, gTest.get_row_b y = none ↔ (y < gTest.extent.ymin ∨ gTest.extent.ymax < y)) ∧
    (∀ x : ℚ, gTest.get_column_b x = none ↔ (x < gTest.extent.xmin ∨ gTest.extent.xmax < x)) ∧
    (∀ y : ℚ, gTest.extent.ymin ≤ y → y ≤ gTest.extent.ymax →
      ∃ r, gTest.get_row_b y = some r ∧ r < gTest.rows) ∧
    (∀ x : ℚ, gTest.extent.xmin ≤ x → x ≤ gTest.extent.xmax →
      ∃ c, gTest.get_column_b x = some c ∧ c < gTest.cols) :=
  C4_bounded_out_of_extent gTest (by rw [gTest_rows]; norm_num) (by rw [gTest_cols]; norm_num)

/-! Claim C5: shrink_to_fit is idempotent. -/

/-- C5: for every grid with positive cell sizes and every box intersecting
its extent, shrinking twice to the same box gives the same grid as
shrinking once — in particular the same row and column counts.  (In exact
rational arithmetic a box edge "within floating-point tolerance of a grid
line" is simply an edge on or off the line, so the property is proved for
all boxes.) -/
theorem C5_shrink_idempotent (g : Grid) (b : Box) (hdx : 0 < g.dx) (hdy : 0 < g.dy)
    (_hint : b.intersects g.extent = true) :
    (g.shrink_to_fit b).shrink_to_fit b = g.shrink_to_fit b ∧
    ((g.shrink_to_fit b).shrink_to_fit b).rows = (g.shrink_to_fit b).rows ∧
    ((g.shrink_to_fit b).shrink_to_fit b).cols = (g.shrink_to_fit b).cols := by
  have hdx0 : g.dx ≠ 0 := ne_of_gt hdx
  have hdy0 : g.dy ≠ 0 := ne_of_gt hdy
  set q := (b.xmin - g.extent.xmin) / g.dx with hq
  set p := (b.xmax - g.extent.xmin) / g.dx with hp
  set w := (g.extent.ymax - b.ymax) / g.dy with hw
  set s := (g.extent.ymax - b.ymin) / g.dy with hs
  have h1 : (b.xmin - (g.extent.xmin + (⌊q⌋ : ℚ) * g.dx)) / g.dx = Int.fract q := by
    rw [Int.fract, hq]
    field_simp
    ring
  have h2 : (b.xmax - (g.extent.xmin + (⌊q⌋ : ℚ) * g.dx)) / g.dx = p - (⌊q⌋ : ℚ) := by
    rw [hp]
    field_simp
    ring
  have h3 : ((g.extent.ymax - (⌊w⌋ : ℚ) * g.dy) - b.ymax) / g.dy = Int.fract w := by
    rw [Int.fract, hw]
    field_simp
    ring
  have h4 : ((g.extent.ymax - (⌊w⌋ : ℚ) * g.dy) - b.ymin) / g.dy = s - (⌊w⌋ : ℚ) := by
    rw [hs]
    field_simp
    ring
  have heq : (g.shrink_to_fit b).shrink_to_fit b = g.shrink_to_fit b := by
    simp only [Grid.shrink_to_fit]
    congr 1
    congr 1
    · rw [h1, Int.floor_fract]
      push_cast
      ring
    · rw [h4]
      rw [show s - (⌊w⌋ : ℚ) = s - (⌊w⌋ : ℤ) from rfl, Int.ceil_sub_int]
      push_cast
      ring
    · rw [h2]
      rw [show p - (⌊q⌋ : ℚ) = p - (⌊q⌋ : ℤ) from rfl, Int.ceil_sub_int]
      push_cast
      ring
    · rw [h3, Int.floor_fract]
      push_cast
      ring
  exact ⟨heq, by rw [heq], by rw [heq]⟩

/-- C5, witness: idempotence instantiated on the half-world grid and the
box of the staged shrink test. -/
theorem C5_witness :
    (gTest.shrink_to_fit bShrink).shrink_to_fit bShrink = gTest.shrink_to_fit bShrink ∧
    ((gTest.shrink_to_fit bShrink).shrink_to_fit bShrink).rows = (gTest.shrink_to_fit bShrink).rows ∧
    ((gTest.shrink_to_fit bShrink).shrink_to_fit bShrink).cols = (gTest.shrink_to_fit bShrink).cols :=
  C5_shrink_idempotent gTest bShrink (by norm_num [gTest]) (by norm_num [gTest])
    (by simp only [Box.intersects, gTest, bShrink]; norm_num)

/-! Claim C6: the shrunk grid contains the box and keeps the cell size. -/

/-- C6: for every grid with positive cell sizes and every box intersecting
its extent, the grid returned by `shrink_to_fit` contains the box (its
`xmin` is at most the box's, its `xmax` at least, likewise in y, equality
allowed), and its cell sizes `dx`, `dy` equal the original grid's. -/
theorem C6_shrink_contains (g : Grid) (b : Box) (hdx : 0 < g.dx) (hdy : 0 < g.dy)
    (_hint : b.intersects g.extent = true) :
    (g.shrink_to_fit b).extent.xmin ≤ b.xmin ∧
    b.xmax ≤ (g.shrink_to_fit b).extent.xmax ∧
    (g.shrink_to_fit b).extent.ymin ≤ b.ymin ∧
    b.ymax ≤ (g.shrink_to_fit b).extent.ymax ∧
    (g.shrink_to_fit b).dx = g.dx ∧ (g.shrink_to_fit b).dy = g.dy := by
  have hdx0 : g.dx ≠ 0 := ne_of_gt hdx
  have hdy0 : g.dy ≠ 0 := ne_of_gt hdy
  refine ⟨?_, ?_, ?_, ?_, rfl, rfl⟩
  · have h := Int.floor_le ((b.xmin - g.extent.xmin) / g.dx)
    have h2 : (⌊(b.xmin - g.extent.xmin) / g.dx⌋ : ℚ) * g.dx ≤
        (b.xmin - g.extent.xmin) / g.dx * g.dx :=
      mul_le_mul_of_nonneg_right h (le_of_lt hdx)
    rw [div_mul_cancel₀ _ hdx0] at h2
    simp only [Grid.shrink_to_fit]
    linarith
  · have h := Int.le_ceil ((b.xmax - g.extent.xmin) / g.dx)
    have h2 : (b.xmax - g.extent.xmin) / g.dx * g.dx ≤
        (⌈(b.xmax - g.extent.xmin) / g.dx⌉ : ℚ) * g.dx :=
      mul_le_mul_of_nonneg_right h (le_of_lt hdx)
    rw [div_mul_cancel₀ _ hdx0] at h2
    simp only [Grid.shrink_to_fit]
    linarith
  · have h := Int.le_ceil ((g.extent.ymax - b.ymin) / g.dy)
    have h2 : (g.extent.ymax - b.ymin) / g.dy * g.dy ≤
        (⌈(g.extent.ymax - b.ymin) / g.dy⌉ : ℚ) * g.dy :=
      mul_le_mul_of_nonneg_right h (le_of_lt hdy)
    rw [div_mul_cancel₀ _ hdy0] at h2
    simp only [Grid.shrink_to_fit]
    linarith
  · have h := Int.floor_le ((g.extent.ymax - b.ymax) / g.dy)
    have h2 : (⌊(g.extent.ymax - b.ymax) / g.dy⌋ : ℚ) * g.dy ≤
        (g.extent.ymax - b.ymax) / g.dy * g.dy :=
      mul_le_mul_of_nonneg_right h (le_of_lt hdy)
    rw [div_mul_cancel₀ _ hdy0] at h2
    simp only [Grid.shrink_to_fit]
    linarith

/-- C6, witness: containment and preserved cell size instantiated on the
half-world grid and the box of the staged shrink test. -/
theorem C6_witness :
    (gTest.shrink_to_fit bShrink).extent.xmin ≤ bShrink.xmin ∧
    bShrink.xmax ≤ (gTest.shrink_to_fit bShrink).extent.xmax ∧
    (gTest.shrink_to_fit bShrink).extent.ymin ≤ bShrink.ymin ∧
    bShrink.ymax ≤ (gTest.shrink_to_fit bShrink).extent.ymax ∧
    (gTest.shrink_to_fit bShrink).dx = gTest.dx ∧
    (gTest.shrink_to_fit bShrink).dy = gTest.dy :=
  C6_shrink_contains gTest bShrink (by norm_num [gTest]) (by norm_num [gTest])
    (by simp only [Box.intersects, gTest, bShrink]; norm_num)

theorem isIntegerMultipleOf_iff (a b : ℚ) (hb : b ≠ 0) :
    isIntegerMultipleOf a b = true ↔ ∃ n : ℤ, a = (n : ℚ) * b := by
  rw [isIntegerMultipleOf, beq_iff_eq]
  constructor
  · intro h
    refine ⟨(a / b).num, ?_⟩
    have hnum : (((a / b).num : ℤ) : ℚ) = a / b := (Rat.den_eq_one_iff _).mp h
    rw [hnum, div_mul_cancel₀ _ hb]
  · rintro ⟨n, rfl⟩
    rw [mul_div_assoc, div_self hb, mul_one]
    exact Rat.den_intCast n

/-! Claim C7: grid compatibility. -/

/-- C7: for grids with positive cell sizes, `compatible_with` is true iff
one of the two cell sizes is an integer multiple of the other in each axis,
and the difference of the grids' `xmin` (and `ymin`) is an integer multiple
of the finer cell size.  In particular, the tenth-degree grid and the
eighth-degree NLDAS grid are incompatible (0.1/0.125 is not an integer
either way), and two half-degree grids whose origins differ by 0.25 are
incompatible — alongside the positive verdicts of the staged compatibility
tests. -/
theorem C7_compatible_with_iff (a b : Grid) (hadx : 0 < a.dx) (hady : 0 < a.dy)
    (hbdx : 0 < b.dx) (hbdy : 0 < b.dy) :
    (a.compatible_with b = true ↔
      ((∃ n : ℤ, a.dx = (n : ℚ) * b.dx) ∨ (∃ n : ℤ, b.dx = (n : ℚ) * a.dx)) ∧
      ((∃ n : ℤ, a.dy = (n : ℚ) * b.dy) ∨ (∃ n : ℤ, b.dy = (n : ℚ) * a.dy)) ∧
      (∃ n : ℤ, a.extent.xmin - b.extent.xmin = (n : ℚ) * min a.dx b.dx) ∧
      (∃ n : ℤ, a.extent.ymin - b.extent.ymin = (n : ℚ) * min a.dy b.dy)) ∧
    gTenthDegree.compatible_with gNldas = false ∧
    gHalfDegree.compatible_with gHalfDegreeOffset = false ∧
    gHalfDegree.compatible_with gOneDegree = true ∧
    gHalfDegree.compatible_with gTenthDegree = true ∧
    gOneDegree.compatible_with gNldas = true := by
  refine ⟨?_, ?_, ?_, ?_, ?_, ?_⟩
  · rw [Grid.compatible_with]
    simp only [Bool.and_eq_true, Bool.or_eq_true]
    rw [isIntegerMultipleOf_iff _ _ (ne_of_gt hbdx), isIntegerMultipleOf_iff _ _ (ne_of_gt hadx),
      isIntegerMultipleOf_iff _ _ (ne_of_gt hbdy), isIntegerMultipleOf_iff _ _ (ne_of_gt hady),
      isIntegerMultipleOf_iff _ _ (ne_of_gt (lt_min hadx hbdx)),
      isIntegerMultipleOf_iff _ _ (ne_of_gt (lt_min hady hbdy))]
    tauto
  · norm_num [Grid.compatible_with, isIntegerMultipleOf, gTenthDegree, gNldas]
  · norm_num [Grid.compatible_with, isIntegerMultipleOf, gHalfDegree, gHalfDegreeOffset]
  · norm_num [Grid.compatible_with, isIntegerMultipleOf, gHalfDegree, gOneDegree]
  · norm_num [Grid.compatible_with, isIntegerMultipleOf, gHalfDegree, gTenthDegree]
  · norm_num [Grid.compatible_with, isIntegerMultipleOf, gOneDegree, gNldas]

/-- C7, witness: the characterisation instantiated on the half-degree and
one-degree global grids (whose cell sizes are positive), alongside the
concrete staged verdicts. -/
theorem C7_witness :
    (gHalfDegree.compatible_with gOneDegree = true ↔
      ((∃ n : ℤ, gHalfDegree.dx = (n : ℚ) * gOneDegree.dx) ∨
        (∃ n : ℤ, gOneDegree.dx = (n : ℚ) * gHalfDegree.dx)) ∧
      ((∃ n : ℤ, gHalfDegree.dy = (n : ℚ) * gOneDegree.dy) ∨
        (∃ n : ℤ, gOneDegree.dy = (n : ℚ) * gHalfDegree.dy)) ∧
      (∃ n : ℤ, gHalfDegree.extent.xmin - gOneDegree.extent.xmin =
        (n : ℚ) * min gHalfDegree.dx gOneDegree.dx) ∧
      (∃ n : ℤ, gHalfDegree.extent.ymin - gOneDegree.extent.ymin =
        (n : ℚ) * min gHalfDegree.dy gOneDegree.dy)) ∧
    gTenthDegree.compatible_with gNldas = false ∧
    gHalfDegree.compatible_with gHalfDegreeOffset = false ∧
    gHalfDegree.compatible_with gOneDegree = true ∧
    gHalfDegree.compatible_with gTenthDegree = true ∧
    gOneDegree.compatible_with gNldas = true :=
  C7_compatible_with_iff gHalfDegree gOneDegree (by norm_num [gHalfDegree])
    (by norm_num [gHalfDegree]) (by norm_num [gOneDegree]) (by norm_num [gOneDegree])

theorem floor_add_half_div_nat (j k : ℕ) (hk : 0 < k) :
    ⌊((j : ℚ) + 1/2) / (k : ℚ)⌋ = ((j / k : ℕ) : ℤ) := by
  have hkq : (0 : ℚ) < (k : ℚ) := by exact_mod_cast hk
  have h1 : (((j / k : ℕ) : ℚ)) * (k : ℚ) ≤ (j : ℚ) := by
    exact_mod_cast Nat.div_mul_le_self j k
  have h2 : j < (j / k + 1) * k := by
    have hm : j % k < k := Nat.mod_lt _ hk
    calc j = k * (j / k) + j % k := (Nat.div_add_mod j k).symm
      _ < k * (j / k) + k := Nat.add_lt_add_left hm _
      _ = (j / k + 1) * k := by ring
  have h2q : (j : ℚ) + 1 ≤ (((j / k : ℕ) : ℚ) + 1) * (k : ℚ) := by exact_mod_cast h2
  rw [Int.floor_eq_iff]
  constructor
  · have hle : (((j / k : ℕ) : ℚ)) ≤ ((j : ℚ) + 1/2) / (k : ℚ) := by
      rw [le_div_iff₀ hkq]
      linarith
    exact_mod_cast hle
  · have hlt : ((j : ℚ) + 1/2) / (k : ℚ) < (((j / k : ℕ) : ℚ)) + 1 := by
      rw [div_lt_iff₀ hkq]
      linarith
    exact_mod_cast hlt

theorem RasterView_eval (src : Raster) (t : Grid) (nodata : ℚ) (i j : ℕ) (sc sr : ℤ)
    (hsc : ⌊(t.extent.xmin + ((j : ℚ) + 1/2) * t.dx - src.grid.extent.xmin) / src.grid.dx⌋ = sc)
    (hsr : ⌊(src.grid.extent.ymax - (t.extent.ymax - ((i : ℚ) + 1/2) * t.dy)) / src.grid.dy⌋ = sr)
    (hin : 0 ≤ sc ∧ 0 ≤ sr ∧ sc.toNat < src.grid.cols ∧ sr.toNat < src.grid.rows) :
    RasterView src t nodata i j = src.vals sr.toNat sc.toNat := by
  simp only [RasterView]
  rw [hsc, hsr, if_pos hin]

theorem rSquares_cols : rSquares.grid.cols = 10 := by
  have h : roundHalfAwayFromZero ((10 - 0) / 1) = 10 := by
    rw [roundHalfAwayFromZero, if_pos (by norm_num)]
    norm_num
  simp only [rSquares, Grid.cols]
  rw [h]
  rfl

theorem rSquares_rows : rSquares.grid.rows = 10 := by
  have h : roundHalfAwayFromZero ((10 - 0) / 1) = 10 := by
    rw [roundHalfAwayFromZero, if_pos (by norm_num)]
    norm_num
  simp only [rSquares, Grid.rows]
  rw [h]
  rfl

theorem gShiftScale_rows : gShiftScale.rows = 11 := by
  have h : roundHalfAwayFromZero ((8.5 - 3) / (1/2)) = 11 := by
    rw [roundHalfAwayFromZero, if_pos (by norm_num)]
    norm_num
  simp only [gShiftScale, Grid.rows]
  rw [h]
  rfl

theorem gShiftScale_cols : gShiftScale.cols = 5 := by
  have h : roundHalfAwayFromZero ((5 - 2.5) / (1/2)) = 5 := by
    rw [roundHalfAwayFromZero, if_pos (by norm_num)]
    norm_num
  simp only [gShiftScale, Grid.cols]
  rw [h]
  rfl

theorem RasterView_aligned (src : Raster) (t : Grid) (nodata : ℚ) (kx ky i j : ℕ)
    (hx : t.extent.xmin = src.grid.extent.xmin)
    (hy : t.extent.ymax = src.grid.extent.ymax)
    (hdx : src.grid.dx = (kx : ℚ) * t.dx)
    (hdy : src.grid.dy = (ky : ℚ) * t.dy)
    (hkx : 0 < kx) (hky : 0 < ky) (htdx : 0 < t.dx) (htdy : 0 < t.dy)
    (hjc : j / kx < src.grid.cols) (hir : i / ky < src.grid.rows) :
    RasterView src t nodata i j = src.vals (i / ky) (j / kx) := by
  have htdx0 : t.dx ≠ 0 := ne_of_gt htdx
  have htdy0 : t.dy ≠ 0 := ne_of_gt htdy
  have hkx0 : ((kx : ℕ) : ℚ) ≠ 0 := Nat.cast_ne_zero.mpr hkx.ne'
  have hky0 : ((ky : ℕ) : ℚ) ≠ 0 := Nat.cast_ne_zero.mpr hky.ne'
  have hcx : (t.extent.xmin + ((j : ℚ) + 1/2) * t.dx - src.grid.extent.xmin) / src.grid.dx
      = ((j : ℚ) + 1/2) / (kx : ℚ) := by
    rw [hx, hdx]
    field_simp
    ring
  have hcy : (src.grid.extent.ymax - (t.extent.ymax - ((i : ℚ) + 1/2) * t.dy)) / src.grid.dy
      = ((i : ℚ) + 1/2) / (ky : ℚ) := by
    rw [hy, hdy]
    field_simp
    ring
  rw [RasterView_eval src t nodata i j ((j / kx : ℕ) : ℤ) ((i / ky : ℕ) : ℤ)
    (by rw [hcx, floor_add_half_div_nat j kx hkx])
    (by rw [hcy, floor_add_half_div_nat i ky hky])
    ⟨Int.natCast_nonneg _, Int.natCast_nonneg _,
      by rwa [Int.toNat_natCast], by rwa [Int.toNat_natCast]⟩]
  rw [Int.toNat_natCast, Int.toNat_natCast]

/-! Claim C8: the scaled-and-shifted raster view. -/

/-- C8: the staged "scaled and shifted view" scenario — the view of the
10x10 squares raster over `(0, 0, 10, 10)` on target extent
`(2.5, 3, 5, 8.5)` with cell size 0.5 has 11 rows and 5 columns, and its
top-left three values (row 0, columns 0..2) are 2, 3, 3 — each target cell
reading the source cell that contains its center.  When the two origins
coincide, that center rule is exactly floor-division by the refinement
factor: target cell `(i, j)` reads source cell `(i / k_y, j / k_x)`. -/
theorem C8_raster_view_shift_scale :
    gShiftScale.rows = 11 ∧ gShiftScale.cols = 5 ∧
    RasterView rSquares gShiftScale (-1) 0 0 = 2 ∧
    RasterView rSquares gShiftScale (-1) 0 1 = 3 ∧
    RasterView rSquares gShiftScale (-1) 0 2 = 3 ∧
    (∀ (src : Raster) (t : Grid) (nodata : ℚ) (kx ky i j : ℕ),
      t.extent.xmin = src.grid.extent.xmin → t.extent.ymax = src.grid.extent.ymax →
      src.grid.dx = (kx : ℚ) * t.dx → src.grid.dy = (ky : ℚ) * t.dy →
      0 < kx → 0 < ky → 0 < t.dx → 0 < t.dy →
      j / kx < src.grid.cols → i / ky < src.grid.rows →
      RasterView src t nodata i j = src.vals (i / ky) (j / kx)) := by
  refine ⟨gShiftScale_rows, gShiftScale_cols, ?_, ?_, ?_,
    fun src t nodata kx ky i j hx hy hdx hdy hkx hky htdx htdy hjc hir =>
      RasterView_aligned src t nodata kx ky i j hx hy hdx hdy hkx hky htdx htdy hjc hir⟩
  · rw [RasterView_eval rSquares gShiftScale (-1) 0 0 2 1
      (by norm_num [rSquares, gShiftScale])
      (by norm_num [rSquares, gShiftScale])
      ⟨by norm_num, by norm_num, by simp [rSquares_cols], by simp [rSquares_rows]⟩]
    rw [show Int.toNat 1 = 1 from rfl, show Int.toNat 2 = 2 from rfl]
    norm_num [rSquares]
  · rw [RasterView_eval rSquares gShiftScale (-1) 0 1 3 1
      (by norm_num [rSquares, gShiftScale])
      (by norm_num [rSquares, gShiftScale])
      ⟨by norm_num, by norm_num, by simp [rSquares_cols], by simp [rSquares_rows]⟩]
    rw [show Int.toNat 1 = 1 from rfl, show Int.toNat 3 = 3 from rfl]
    norm_num [rSquares]
  · rw [RasterView_eval rSquares gShiftScale (-1) 0 2 3 1
      (by norm_num [rSquares, gShiftScale])
      (by norm_num [rSquares, gShiftScale])
      ⟨by norm_num, by norm_num, by simp [rSquares_cols], by simp [rSquares_rows]⟩]
    rw [show Int.toNat 1 = 1 from rfl, show Int.toNat 3 = 3 from rfl]
    norm_num [rSquares]

theorem processFeature_split (st : RunState) (f : Feature) :
    (processFeature st f).rows = st.rows ++ (processFeature ⟨[], []⟩ f).rows ∧
    (processFeature st f).failures = st.failures ++ (processFeature ⟨[], []⟩ f).failures := by
  rw [processFeature, processFeature]
  by_cases h : f.passesFilter = true
  · rw [if_pos h, if_pos h]
    cases f.outcome <;> simp
  · rw [if_neg h, if_neg h]
    simp

theorem foldl_processFeature_eq (st : RunState) (fs : List Feature) :
    List.foldl processFeature st fs =
      ⟨st.rows ++ (runFeatures fs).rows, st.failures ++ (runFeatures fs).failures⟩ := by
  induction fs generalizing st with
  | nil =>
    show st = RunState.mk (st.rows ++ (runFeatures []).rows) (st.failures ++ (runFeatures []).failures)
    simp [runFeatures]
  | cons f rest ih =>
    rw [List.foldl_cons, ih]
    have hr : runFeatures (f :: rest) =
        RunState.mk ((processFeature ⟨[], []⟩ f).rows ++ (runFeatures rest).rows)
          ((processFeature ⟨[], []⟩ f).failures ++ (runFeatures rest).failures) := by
      rw [runFeatures, List.foldl_cons, ih]
    rw [hr]
    obtain ⟨h1, h2⟩ := processFeature_split st f
    rw [h1, h2, List.append_assoc, List.append_assoc]

theorem runFeatures_append (as bs : List Feature) :
    runFeatures (as ++ bs) =
      ⟨(runFeatures as).rows ++ (runFeatures bs).rows,
        (runFeatures as).failures ++ (runFeatures bs).failures⟩ := by
  rw [runFeatures, List.foldl_append]
  exact foldl_processFeature_eq _ bs

theorem runFeatures_cons (f : Feature) (fs : List Feature) :
    runFeatures (f :: fs) =
      ⟨(processFeature ⟨[], []⟩ f).rows ++ (runFeatures fs).rows,
        (processFeature ⟨[], []⟩ f).failures ++ (runFeatures fs).failures⟩ := by
  rw [runFeatures, List.foldl_cons]
  exact foldl_processFeature_eq _ fs

theorem processFeature_err (f : Feature) (hm : f.passesFilter = true)
    (he : f.outcome = FeatureOutcome.err) :
    processFeature ⟨[], []⟩ f = ⟨[], [f.name]⟩ := by
  rw [processFeature, if_pos hm, he]
  rfl

theorem processFeature_disjoint (f : Feature) (hm : f.passesFilter = true)
    (hd : f.outcome = FeatureOutcome.disjoint) :
    processFeature ⟨[], []⟩ f = ⟨[], []⟩ := by
  rw [processFeature, if_pos hm, hd]

/-! Claim C9: a failing zone is recorded and the loop continues. -/

/-- C9: for every sequence of input zones, if one zone's processing fails
(its try-block throws, for example on an invalid geometry), that zone's
identifier is appended to the failure list — so it is reported in the
final failure summary — and every zone after it is still processed: the
output rows and recorded failures of the zones before and after the failing
one are exactly those of a run without it, and the run's exit status is 1. -/
theorem C9_failing_zone_recorded_and_run_continues (pre post : List Feature) (f : Feature)
    (hm : f.passesFilter = true) (he : f.outcome = FeatureOutcome.err) :
    (runFeatures (pre ++ f :: post)).rows =
      (runFeatures pre).rows ++ (runFeatures post).rows ∧
    (runFeatures (pre ++ f :: post)).failures =
      (runFeatures pre).failures ++ f.name :: (runFeatures post).failures ∧
    f.name ∈ (runFeatures (pre ++ f :: post)).failures ∧
    mainExitCode (pre ++ f :: post) = 1 := by
  have hall : runFeatures (pre ++ f :: post) =
      ⟨(runFeatures pre).rows ++ (runFeatures post).rows,
        (runFeatures pre).failures ++ f.name :: (runFeatures post).failures⟩ := by
    rw [runFeatures_append pre (f :: post), runFeatures_cons f post,
      processFeature_err f hm he]
    simp
  refine ⟨by rw [hall], by rw [hall], ?_, ?_⟩
  · rw [hall]
    simp
  · rw [mainExitCode, if_neg]
    rw [hall]
    simp

/-- C9, witness: a three-zone run — a successful zone, then a zone whose
geometry processing throws, then a silently skipped zone — records exactly
the failing zone's name and still processes the rest. -/
theorem C9_witness :
    (runFeatures ([fOk] ++ fBad :: [fSkip])).rows =
      (runFeatures [fOk]).rows ++ (runFeatures [fSkip]).rows ∧
    (runFeatures ([fOk] ++ fBad :: [fSkip])).failures =
      (runFeatures [fOk]).failures ++ fBad.name :: (runFeatures [fSkip]).failures ∧
    fBad.name ∈ (runFeatures ([fOk] ++ fBad :: [fSkip])).failures ∧
    mainExitCode ([fOk] ++ fBad :: [fSkip]) = 1 :=
  C9_failing_zone_recorded_and_run_continues [fOk] [fSkip] fBad rfl rfl

/-! Claim C10: a zone whose bounding box misses the raster extent is
silently skipped. -/

/-- C10: a zone whose bounding box does not intersect the value raster's
extent produces no output row and no failure record: the run's observable
state and exit status are exactly those of the same run without that zone. -/
theorem C10_disjoint_zone_silently_skipped (pre post : List Feature) (f : Feature)
    (hm : f.passesFilter = true) (hd : f.outcome = FeatureOutcome.disjoint) :
    runFeatures (pre ++ f :: post) = runFeatures (pre ++ post) ∧
    mainExitCode (pre ++ f :: post) = mainExitCode (pre ++ post) := by
  have hall : runFeatures (pre ++ f :: post) = runFeatures (pre ++ post) := by
    rw [runFeatures_append pre (f :: post), runFeatures_cons f post,
      processFeature_disjoint f hm hd, runFeatures_append pre post]
    simp
  refine ⟨hall, ?_⟩
  rw [mainExitCode, mainExitCode, hall]

/-- C10, witness: dropping the disjoint zone from a concrete three-zone run
changes neither the output state nor the exit status. -/
theorem C10_witness :
    runFeatures ([fOk] ++ fSkip :: [fBad]) = runFeatures ([fOk] ++ [fBad]) ∧
    mainExitCode ([fOk] ++ fSkip :: [fBad]) = mainExitCode ([fOk] ++ [fBad]) :=
  C10_disjoint_zone_silently_skipped [fOk] [fBad] fSkip rfl rfl

end ExactExtract
